import Mathlib

/-!
Formal model of cmdgen (src/cmdgen.py): the usage normalizer, the history
store, the request gateway boundary, the interrupt controller and the REPL
session engine, translated as a shallow embedding.  Python mappings are
modelled as association lists, machine integers as Int, file state as an
optional list of lines (none = missing file), and exceptions as explicit
outcome values.
-/

/-- Python values as they occur in a provider usage mapping: integers, None,
and nested string-keyed mappings.  A mapping is an association list whose
lookup returns the first binding, matching Python dict lookup (keys unique). -/
inductive PyVal where
  | vint : Int → PyVal
  | vnone : PyVal
  | vdict : List (String × PyVal) → PyVal

/-- Python usage.get(k): the bound value, or None when the key is absent. -/
def dictGet (d : List (String × PyVal)) (k : String) : PyVal :=
  (List.lookup k d).getD .vnone

/-- Python usage.get(k, dflt): the bound value, or dflt when the key is
absent; a stored None is returned as stored. -/
def dictGetD (d : List (String × PyVal)) (k : String) (dflt : PyVal) : PyVal :=
  (List.lookup k d).getD dflt

/-- Python test x is None. -/
def isNone : PyVal → Bool
  | .vnone => true
  | _ => false

/-- Python truthiness of the modelled values: 0, None and the empty mapping
are falsy, everything else is truthy. -/
def truthy : PyVal → Bool
  | .vint n => decide (n ≠ 0)
  | .vnone => false
  | .vdict d => !d.isEmpty

/-- Python expression x or 0. -/
def pyOrZero (x : PyVal) : PyVal :=
  if truthy x then x else .vint 0

/-- Python int(x) on the modelled values: identity on integers, TypeError on
None and on mappings (a non-empty mapping is not int-coercible). -/
def pyInt : PyVal → Except String Int
  | .vint n => .ok n
  | .vnone => .error "TypeError"
  | .vdict _ => .error "TypeError"

/-- Python x.get(k, dflt) used on the value stored under input_tokens_details:
works when x is a mapping, raises AttributeError otherwise. -/
def pyMethodGetD (x : PyVal) (k : String) (dflt : PyVal) : Except String PyVal :=
  match x with
  | .vdict d => .ok (dictGetD d k dflt)
  | _ => .error "AttributeError"

/-- The canonical four-field usage record produced by the usage normalizer. -/
structure UsageRecord where
  prompt_tokens : Int
  completion_tokens : Int
  cached_tokens : Int
  total_tokens : Int
  deriving DecidableEq

/-- Embedding of _parse_usage (src/cmdgen.py lines 127-151).  The four
initial gets, the four is-None fallbacks in source order, the nested
input_tokens_details access (which can raise AttributeError, before the int
coercions, as in the source), and the final int(x or 0) coercions in the
order the Python dict literal evaluates them. -/
def parse_usage (usage : List (String × PyVal)) : Except String UsageRecord :=
  let prompt0 := dictGet usage "prompt_tokens"
  let completion0 := dictGet usage "completion_tokens"
  let total0 := dictGet usage "total_tokens"
  let prompt1 := if isNone prompt0 then
      dictGetD usage "input_tokens" (dictGetD usage "tokens" (.vint 0))
    else prompt0
  let completion1 := if isNone completion0 then
      dictGetD usage "output_tokens" (.vint 0)
    else completion0
  let total1 := if isNone total0 then dictGetD usage "tokens" (.vint 0) else total0
  match (if isNone (dictGet usage "cached_tokens") then
           pyMethodGetD (dictGetD usage "input_tokens_details" (.vdict []))
             "cached_tokens" (.vint 0)
         else .ok (dictGet usage "cached_tokens")) with
  | .error e => .error e
  | .ok cached1 =>
    match pyInt (pyOrZero prompt1) with
    | .error e => .error e
    | .ok p =>
      match pyInt (pyOrZero completion1) with
      | .error e => .error e
      | .ok c =>
        match pyInt (pyOrZero cached1) with
        | .error e => .error e
        | .ok ca =>
          match pyInt (pyOrZero total1) with
          | .error e => .error e
          | .ok t => .ok ⟨p, c, ca, t⟩

/-- Python list slice l[n:] for an arbitrary integer n: a negative start
counts from the end, and l[-0:] is l[0:], the whole list (negation of zero
is zero), which is exactly the slip trim_history makes for max_history 0. -/
def pySliceFrom (l : List String) (n : Int) : List String :=
  if 0 ≤ n then l.drop n.toNat else l.drop ((l.length : Int) + n).toNat

/-- Embedding of trim_history (src/cmdgen.py lines 94-105).  The file is
modelled as an optional list of lines (none = missing file, FileNotFoundError
branch); when the line count exceeds max_history the file is rewritten with
the Python slice lines[-max_history:]. -/
def trim_history (maxHistory : Int) (file : Option (List String)) : Option (List String) :=
  match file with
  | none => none
  | some lines =>
    if (lines.length : Int) > maxHistory then some (pySliceFrom lines (-maxHistory))
    else some lines

/-- The all-zero usage record: the initial empty cumulative dict, whose
get(k, 0) reads are 0. -/
def zeroUsage : UsageRecord := ⟨0, 0, 0, 0⟩

/-- Field-wise addition of usage records. -/
def addUsage (a b : UsageRecord) : UsageRecord :=
  ⟨a.prompt_tokens + b.prompt_tokens, a.completion_tokens + b.completion_tokens,
   a.cached_tokens + b.cached_tokens, a.total_tokens + b.total_tokens⟩

/-- Embedding of update_stats (src/cmdgen.py lines 205-209): parse the raw
usage mapping and add it field-wise into the cumulative record. -/
def update_stats (cumulative : UsageRecord) (usage : List (String × PyVal)) :
    Except String UsageRecord :=
  (parse_usage usage).map (fun r => addUsage cumulative r)

/-- Cumulative statistics of a session: update_stats folded over the raw
usage mappings of the turns, starting from the empty cumulative dict. -/
def foldStats (usages : List (List (String × PyVal))) : Except String UsageRecord :=
  List.foldlM update_stats zeroUsage usages

/-- Field-wise sum of a list of usage records. -/
def sumRecords (rs : List UsageRecord) : UsageRecord :=
  ⟨(rs.map (fun r => r.prompt_tokens)).sum,
   (rs.map (fun r => r.completion_tokens)).sum,
   (rs.map (fun r => r.cached_tokens)).sum,
   (rs.map (fun r => r.total_tokens)).sum⟩

/-- Spec-side definition, following the words of the spec for comparison with
parse_usage: resolve a counter through a key chain, first present (integer)
value wins, default 0. -/
def resolveChain (d : List (String × PyVal)) : List String → Int
  | [] => 0
  | k :: rest =>
    match List.lookup k d with
    | some (.vint n) => n
    | _ => resolveChain d rest

/-- Spec-side definition for the cached counter: cached_tokens, else the
nested input_tokens_details.cached_tokens, default 0. -/
def resolveCached (d : List (String × PyVal)) : Int :=
  match List.lookup "cached_tokens" d with
  | some (.vint n) => n
  | _ =>
    match List.lookup "input_tokens_details" d with
    | some (.vdict inner) =>
      match List.lookup "cached_tokens" inner with
      | some (.vint n) => n
      | _ => 0
    | _ => 0

/-- Value is an integer. -/
def isVint : PyVal → Bool
  | .vint _ => true
  | _ => false

/-- Value is an integer or None. -/
def isIntish : PyVal → Bool
  | .vint _ => true
  | .vnone => true
  | _ => false

/-- Every value of the mapping is an integer. -/
def intDict (d : List (String × PyVal)) : Bool := d.all fun p => isVint p.2

/-- Every value of the mapping is an integer or None. -/
def intishDict (d : List (String × PyVal)) : Bool := d.all fun p => isIntish p.2

/-- Usage mapping of integer counters: every value is an integer, except that
input_tokens_details, if present, is a nested mapping of integers. -/
def wellShaped (d : List (String × PyVal)) : Bool :=
  d.all fun p =>
    if p.1 == "input_tokens_details" then
      match p.2 with
      | .vdict inner => intDict inner
      | _ => false
    else isVint p.2

/-- Usage mapping of integer-or-None counters: every value is an integer or
None, except that input_tokens_details, if present, is a nested mapping of
integer-or-None values. -/
def wellShapedN (d : List (String × PyVal)) : Bool :=
  d.all fun p =>
    if p.1 == "input_tokens_details" then
      match p.2 with
      | .vdict inner => intishDict inner
      | _ => false
    else isIntish p.2

/-- Every integer stored in the mapping, top level or nested one level, is
non-negative. -/
def nonnegVals (d : List (String × PyVal)) : Bool :=
  d.all fun p =>
    match p.2 with
    | .vint n => decide (0 ≤ n)
    | .vdict inner => inner.all fun q =>
        match q.2 with
        | .vint m => decide (0 ≤ m)
        | _ => true
    | .vnone => true

/-- The integer carried by a value, 0 for None and mappings. -/
def intOf : PyVal → Int
  | .vint n => n
  | _ => 0

/-- Python str.strip() on the modelled inputs: drop whitespace from both
ends.  Defined over the character list so that it reduces structurally. -/
def pyStrip (s : String) : String :=
  ⟨((s.data.dropWhile Char.isWhitespace).reverse.dropWhile Char.isWhitespace).reverse⟩

/-- Python s.startswith(pre), over the character lists. -/
def pyStartsWith (s pre : String) : Bool :=
  pre.data.isPrefixOf s.data

/-- Python s[1:] on a string, over the character list. -/
def strDropOne (s : String) : String :=
  ⟨s.data.drop 1⟩

/-- Split a character list on a separator character; always yields one more
segment than there are separators. -/
def splitOnChar (sep : Char) : List Char → List (List Char)
  | [] => [[]]
  | c :: cs =>
    match splitOnChar sep cs with
    | [] => [[]]
    | h :: t => if c = sep then [] :: h :: t else (c :: h) :: t

/-- A transcript message: a role paired with text content. -/
structure Message where
  role : String
  content : String
  deriving DecidableEq

/-- Outcome of one call to make_api_request as observed by run_repl: a
successful response carrying the command text and an optional raw usage
mapping; a gateway failure, on which make_api_request itself calls
sys.exit(1) (src/cmdgen.py lines 123-125), raising SystemExit(1); or a
KeyboardInterrupt raised by the signal handler while the call was in flight
(in_request true, src/cmdgen.py lines 230-231). -/
inductive GwResult where
  | success : String → Option (List (String × PyVal)) → GwResult
  | failure : GwResult
  | interrupted : GwResult

/-- How control leaves the session code: normal return, or one of the Python
exceptions the program can raise across it.  typer.Exit is click's Exit,
a RuntimeError subclass, hence an Exception; SystemExit and
KeyboardInterrupt are BaseExceptions that except Exception does not catch. -/
inductive PyOutcome where
  | normal : PyOutcome
  | kbInterrupt : PyOutcome
  | systemExit : Int → PyOutcome
  | typerExit : Int → PyOutcome
  | exc : String → PyOutcome
  deriving DecidableEq

/-- Exit code of the process as determined by the handlers at the end of
main (src/cmdgen.py lines 409-418): a normal return exits 0;
except KeyboardInterrupt raises typer.Exit(0), exit code 0; SystemExit is
caught by neither handler and keeps its code; typer.Exit and every other
Exception are caught by except Exception, which re-raises typer.Exit(1),
exit code 1 - so a typer.Exit raised below main with code 0 still ends the
process with exit code 1. -/
def mainExitCode : PyOutcome → Int
  | .normal => 0
  | .kbInterrupt => 0
  | .systemExit c => c
  | .typerExit _ => 1
  | .exc _ => 1

/-- State the REPL loop threads through its iterations: the transcript, the
cumulative usage (the dict, as a record - the empty dict reads as zeros),
and the number of gateway calls made so far (the index into the gateway
oracle). -/
structure ReplState where
  transcript : List Message
  cumulative : UsageRecord
  gwCalls : Nat
  deriving DecidableEq

/-- Embedding of the while loop of run_repl (src/cmdgen.py lines 239-292).
Inputs are the successive returns of session.prompt; an exhausted list is
the EOFError break.  The gateway is an oracle indexed by call count.
Returns the state at loop end, how the loop ended, and the inputs never
read (after a break or an escaping exception the remaining inputs are not
consumed).  Interrupt and failure outcomes of the in-flight call escape the
loop: the only try around the call has a finally and no except clause. -/
def replLoop (statsLevel : Option String) (gw : Nat → GwResult) :
    List String → ReplState → ReplState × PyOutcome × List String
  | [], st => (st, .normal, [])
  | e :: rest, st =>
    let text := pyStrip e
    if text = "exit" ∨ text = "quit" then (st, .normal, rest)
    else if text = "" then replLoop statsLevel gw rest st
    else if pyStartsWith text ":" then
      let cmd := strDropOne text
      let st1 :=
        if cmd = "undo" ∧ 2 ≤ st.transcript.length then
          { st with transcript := st.transcript.dropLast.dropLast }
        else st
      replLoop statsLevel gw rest st1
    else
      let st1 := { st with transcript := st.transcript ++ [Message.mk "user" text] }
      match gw st.gwCalls with
      | .interrupted => ({ st1 with gwCalls := st1.gwCalls + 1 }, .kbInterrupt, rest)
      | .failure => ({ st1 with gwCalls := st1.gwCalls + 1 }, .systemExit 1, rest)
      | .success cmdText usage =>
        let st2 := { st1 with
          gwCalls := st1.gwCalls + 1
          transcript := st1.transcript ++ [Message.mk "assistant" cmdText] }
        match statsLevel, usage with
        | some _, some u =>
          match parse_usage u with
          | .error m => (st2, .exc m, rest)
          | .ok r =>
            replLoop statsLevel gw rest
              { st2 with cumulative := addUsage st2.cumulative r }
        | _, _ => replLoop statsLevel gw rest st2

/-- Python str.splitlines restricted to newline separators: the empty string
has no lines, and a trailing newline does not open a final empty line. -/
def pySplitlines (s : String) : List String :=
  if s.data = [] then []
  else
    let parts := (splitOnChar (Char.ofNat 10) s.data).map (fun l => String.mk l)
    if s.data.getLast? = some (Char.ofNat 10) then parts.dropLast else parts

/-- The final instruction message content of the summary call
(src/cmdgen.py line 298). -/
def summaryInstruction : String :=
  "Summarize the prompt that produced the final command. One line, no markdown."

/-- Result of the termination phase: final state, final history file,
how control left run_repl, and the message list sent on the summary call
(none when no summary call was made). -/
structure FinishOutput where
  st : ReplState
  history : Option (List String)
  outcome : PyOutcome
  summaryPrompt : Option (List Message)
  deriving DecidableEq

/-- Embedding of the termination phase of run_repl (src/cmdgen.py lines
294-308).  With an empty transcript nothing happens.  Otherwise one more
gateway call is made with the transcript plus the summary instruction;
splitlines()[0] on the returned text raises IndexError when the text is
empty, before any stats update or history write; otherwise the stats are
folded in (a parse error escapes as an exception), then the history file is
appended a blank line, a timestamp comment line and a sentinel line, and
retention is enforced.  The history file is modelled as its list of lines,
every line newline-terminated on disk, so the leading newline of the
appended block opens exactly one blank line. -/
def finishSession (statsLevel : Option String) (gw : Nat → GwResult) (maxHistory : Int)
    (timestamp : String) (st : ReplState) (history : Option (List String)) : FinishOutput :=
  if st.transcript = [] then ⟨st, history, .normal, none⟩
  else
    let sp := st.transcript ++ [Message.mk "user" summaryInstruction]
    match gw st.gwCalls with
    | .interrupted => ⟨{ st with gwCalls := st.gwCalls + 1 }, history, .kbInterrupt, some sp⟩
    | .failure => ⟨{ st with gwCalls := st.gwCalls + 1 }, history, .systemExit 1, some sp⟩
    | .success text usage =>
      let st1 := { st with gwCalls := st.gwCalls + 1 }
      match pySplitlines text with
      | [] => ⟨st1, history, .exc "IndexError", some sp⟩
      | summary :: _ =>
        let step : Except String ReplState :=
          match statsLevel, usage with
          | some _, some u =>
            (parse_usage u).map fun r => { st1 with cumulative := addUsage st1.cumulative r }
          | _, _ => .ok st1
        match step with
        | .error m => ⟨st1, history, .exc m, some sp⟩
        | .ok st2 =>
          let h1 := history.getD [] ++ ["", "# " ++ timestamp, "+" ++ summary]
          ⟨st2, trim_history maxHistory (some h1), .normal, some sp⟩

/-- Observable result of an interactive session: final state, final history
file, how control left, the inputs never consumed, the summary call message
list if one was made, and the process exit code after the handlers in main. -/
structure RunOutput where
  st : ReplState
  history : Option (List String)
  outcome : PyOutcome
  remaining : List String
  summaryPrompt : Option (List Message)
  exitCode : Int
  deriving DecidableEq

/-- Embedding of run_repl (src/cmdgen.py lines 211-311) composed with the
exception handlers of main: the loop runs; only a normal break reaches the
termination phase, while an escaping exception leaves the history untouched
and flows to the handlers of main, which fix the exit code. -/
def run_repl (statsLevel : Option String) (gw : Nat → GwResult) (maxHistory : Int)
    (timestamp : String) (events : List String) (st0 : ReplState)
    (history0 : Option (List String)) : RunOutput :=
  match replLoop statsLevel gw events st0 with
  | (st, .normal, rem) =>
    let f := finishSession statsLevel gw maxHistory timestamp st history0
    ⟨f.st, f.history, f.outcome, rem, f.summaryPrompt, mainExitCode f.outcome⟩
  | (st, o, rem) => ⟨st, history0, o, rem, none, mainExitCode o⟩

/-- What the signal handler does on one delivered interrupt. -/
inductive SigAction where
  | raiseKeyboardInterrupt : SigAction
  | raiseTyperExit : SigAction
  | notice : ℚ → SigAction
  deriving DecidableEq

/-- Embedding of handle_sigint (src/cmdgen.py lines 227-235): with a request
in flight it raises KeyboardInterrupt; idle, within 1 second of the previous
interrupt it raises typer.Exit() - exit_code 0 by construction; otherwise it
records the current time and prints the press-again notice.  Time is
modelled as a rational number of seconds. -/
def handle_sigint (in_request : Bool) (last_sigint now : ℚ) : SigAction :=
  if in_request then .raiseKeyboardInterrupt
  else if now - last_sigint < 1 then .raiseTyperExit
  else .notice now

/-- A sequence of idle-state interrupts delivered at the given times,
starting from last_sigint as given (0 at session start).  A notice keeps
the loop going with the recorded time; a raised exception escapes run_repl
and reaches the handlers of main, fixing the exit code.  Returns the exit
code if the session ended, and the final recorded interrupt time. -/
def runIdleInterrupts : List ℚ → ℚ → Option Int × ℚ
  | [], last => (none, last)
  | now :: rest, last =>
    match handle_sigint false last now with
    | .raiseKeyboardInterrupt => (some (mainExitCode .kbInterrupt), last)
    | .raiseTyperExit => (some (mainExitCode (.typerExit 0)), last)
    | .notice l => runIdleInterrupts rest l

/-- Modelled from the spec:
History Store append_raw(line) - the persistent append that
session.history.append_string(prompt) performs in the one-shot path of main.
Its implementation (the prompt_toolkit FileHistory line editor history) is an
external collaborator outside src/; the spec specifies it at the interface
as appending a single line to the history file, after which the caller
enforces retention. -/
def append_raw (history : Option (List String)) (line : String) : List String :=
  history.getD [] ++ [line]

/-- Embedding of the one-shot path of main (src/cmdgen.py lines 379-404):
the prompt is stripped, appended to the persistent history, retention
enforced, and only then validated as non-empty - an empty prompt errors out
with exit code 1 (the raise is inside the try of main, so whether it is the
typer.Exit(1) of line 385 or an exception from the error print, the
except Exception handler ends the process with exit code 1), leaving the
history write in place.  A non-empty prompt goes to the gateway: a failure
is sys.exit(1); an interrupt is caught by except KeyboardInterrupt, exit
code 0; on success the command is printed and the process exits 0.
Returns the final history file and the exit code. -/
def oneShot (gw : Nat → GwResult) (maxHistory : Int) (rawPrompt : String)
    (history0 : Option (List String)) : Option (List String) × Int :=
  let p := pyStrip rawPrompt
  let h := trim_history maxHistory (some (append_raw history0 p))
  if p = "" then (h, 1)
  else
    match gw 0 with
    | .failure => (h, 1)
    | .interrupted => (h, mainExitCode .kbInterrupt)
    | .success _ _ => (h, 0)

/-- The stats step of a turn succeeds: when a stats level is set and the
response carries usage, its mapping parses. -/
def statsOk (statsLevel : Option String) (u : Option (List (String × PyVal))) : Bool :=
  match statsLevel, u with
  | some _, some uu =>
    match parse_usage uu with
    | .ok _ => true
    | .error _ => false
  | _, _ => true

/-- Association list lookup finds a binding of the list. -/
theorem mem_of_lookup {α β : Type} [BEq α] [LawfulBEq α] {a : α} {b : β} :
    ∀ {l : List (α × β)}, List.lookup a l = some b → (a, b) ∈ l := by
  intro l
  induction l with
  | nil => intro h; simp [List.lookup] at h
  | cons p t ih =>
    intro h
    obtain ⟨k, v⟩ := p
    rw [List.lookup] at h
    cases hbe : a == k with
    | true =>
      rw [hbe] at h
      simp only [Option.some.injEq] at h
      subst h
      have : a = k := eq_of_beq hbe
      subst this
      exact List.mem_cons_self _ _
    | false =>
      rw [hbe] at h
      exact List.mem_cons_of_mem _ (ih h)

/-- The int(x or 0) coercion on an integer value is the identity. -/
theorem pyInt_pyOrZero_vint (n : Int) : pyInt (pyOrZero (.vint n)) = .ok n := by
  by_cases h : n = 0
  · subst h; simp [pyOrZero, truthy, pyInt]
  · simp [pyOrZero, truthy, pyInt, h]

/-- The int(x or 0) coercion succeeds on an integer-or-None value and yields
its integer (0 for None). -/
theorem pyInt_pyOrZero_intish (x : PyVal) (h : isIntish x = true) :
    pyInt (pyOrZero x) = .ok (intOf x) := by
  cases x with
  | vint n => exact pyInt_pyOrZero_vint n
  | vnone => simp [pyOrZero, truthy, pyInt, intOf]
  | vdict d => simp [isIntish] at h

/-- In a wellShaped mapping, a key other than input_tokens_details is absent
or bound to an integer. -/
theorem wellShaped_lookup {d : List (String × PyVal)} (h : wellShaped d = true)
    (k : String) (hk : (k == "input_tokens_details") = false) :
    List.lookup k d = none ∨ ∃ n : Int, List.lookup k d = some (.vint n) := by
  cases hl : List.lookup k d with
  | none => exact Or.inl rfl
  | some v =>
    right
    have hm := mem_of_lookup hl
    have hp := List.all_eq_true.mp h _ hm
    simp only [hk, if_false] at hp
    cases v with
    | vint n => exact ⟨n, rfl⟩
    | vnone => simp [isVint] at hp
    | vdict inner => simp [isVint] at hp

/-- In a wellShaped mapping, input_tokens_details is absent or bound to a
nested mapping of integers. -/
theorem wellShaped_details {d : List (String × PyVal)} (h : wellShaped d = true) :
    List.lookup "input_tokens_details" d = none ∨
    ∃ inner, List.lookup "input_tokens_details" d = some (.vdict inner) ∧
      intDict inner = true := by
  cases hl : List.lookup "input_tokens_details" d with
  | none => exact Or.inl rfl
  | some v =>
    right
    have hm := mem_of_lookup hl
    have hp := List.all_eq_true.mp h _ hm
    simp only [beq_self_eq_true, if_true] at hp
    cases v with
    | vint n => simp at hp
    | vnone => simp at hp
    | vdict inner => exact ⟨inner, rfl, hp⟩

/-- In a wellShapedN mapping, a key other than input_tokens_details is absent
or bound to an integer or None. -/
theorem wellShapedN_lookup {d : List (String × PyVal)} (h : wellShapedN d = true)
    (k : String) (hk : (k == "input_tokens_details") = false) :
    List.lookup k d = none ∨ List.lookup k d = some .vnone ∨
    ∃ n : Int, List.lookup k d = some (.vint n) := by
  cases hl : List.lookup k d with
  | none => exact Or.inl rfl
  | some v =>
    right
    have hm := mem_of_lookup hl
    have hp := List.all_eq_true.mp h _ hm
    simp only [hk, if_false] at hp
    cases v with
    | vint n => exact Or.inr ⟨n, rfl⟩
    | vnone => exact Or.inl rfl
    | vdict inner => simp [isIntish] at hp

/-- In a wellShapedN mapping, input_tokens_details is absent or bound to a
nested mapping of integer-or-None values. -/
theorem wellShapedN_details {d : List (String × PyVal)} (h : wellShapedN d = true) :
    List.lookup "input_tokens_details" d = none ∨
    ∃ inner, List.lookup "input_tokens_details" d = some (.vdict inner) ∧
      intishDict inner = true := by
  cases hl : List.lookup "input_tokens_details" d with
  | none => exact Or.inl rfl
  | some v =>
    right
    have hm := mem_of_lookup hl
    have hp := List.all_eq_true.mp h _ hm
    simp only [beq_self_eq_true, if_true] at hp
    cases v with
    | vint n => simp at hp
    | vnone => simp at hp
    | vdict inner => exact ⟨inner, rfl, hp⟩

/-- On a wellShaped mapping, the two-key fallback of _parse_usage computes
the first-present-wins resolution over the same two keys. -/
theorem chain2_ok {d : List (String × PyVal)} (h : wellShaped d = true)
    (k1 k2 : String) (h1 : (k1 == "input_tokens_details") = false)
    (h2 : (k2 == "input_tokens_details") = false) :
    pyInt (pyOrZero (if isNone (dictGet d k1) then dictGetD d k2 (.vint 0)
      else dictGet d k1)) = .ok (resolveChain d [k1, k2]) := by
  rcases wellShaped_lookup h k1 h1 with hl1 | ⟨n, hl1⟩
  · rcases wellShaped_lookup h k2 h2 with hl2 | ⟨m, hl2⟩
    · simp [dictGet, dictGetD, resolveChain, isNone, hl1, hl2, pyInt_pyOrZero_vint]
    · simp [dictGet, dictGetD, resolveChain, isNone, hl1, hl2, pyInt_pyOrZero_vint]
  · simp [dictGet, dictGetD, resolveChain, isNone, hl1, pyInt_pyOrZero_vint]

/-- On a wellShaped mapping, the three-key fallback of _parse_usage computes
the first-present-wins resolution over the same three keys. -/
theorem chain3_ok {d : List (String × PyVal)} (h : wellShaped d = true)
    (k1 k2 k3 : String) (h1 : (k1 == "input_tokens_details") = false)
    (h2 : (k2 == "input_tokens_details") = false)
    (h3 : (k3 == "input_tokens_details") = false) :
    pyInt (pyOrZero (if isNone (dictGet d k1) then
      dictGetD d k2 (dictGetD d k3 (.vint 0)) else dictGet d k1)) =
      .ok (resolveChain d [k1, k2, k3]) := by
  rcases wellShaped_lookup h k1 h1 with hl1 | ⟨n, hl1⟩
  · rcases wellShaped_lookup h k2 h2 with hl2 | ⟨m, hl2⟩
    · rcases wellShaped_lookup h k3 h3 with hl3 | ⟨q, hl3⟩
      · simp [dictGet, dictGetD, resolveChain, isNone, hl1, hl2, hl3, pyInt_pyOrZero_vint]
      · simp [dictGet, dictGetD, resolveChain, isNone, hl1, hl2, hl3, pyInt_pyOrZero_vint]
    · simp [dictGet, dictGetD, resolveChain, isNone, hl1, hl2, pyInt_pyOrZero_vint]
  · simp [dictGet, dictGetD, resolveChain, isNone, hl1, pyInt_pyOrZero_vint]

/-- On a wellShaped mapping, the cached step of _parse_usage succeeds and
carries the integer given by the spec-side cached resolution. -/
theorem cached_ok {d : List (String × PyVal)} (h : wellShaped d = true) :
    (if isNone (dictGet d "cached_tokens") then
       pyMethodGetD (dictGetD d "input_tokens_details" (.vdict []))
         "cached_tokens" (.vint 0)
     else .ok (dictGet d "cached_tokens")) = .ok (.vint (resolveCached d)) := by
  rcases wellShaped_lookup h "cached_tokens" (by decide) with hl | ⟨n, hl⟩
  · rcases wellShaped_details h with hd | ⟨inner, hd, hinner⟩
    · simp [dictGet, dictGetD, resolveCached, isNone, hl, hd, pyMethodGetD]
    · cases hc : List.lookup "cached_tokens" inner with
      | none =>
        simp [dictGet, dictGetD, resolveCached, isNone, hl, hd, hc, pyMethodGetD]
      | some w =>
        have hm := mem_of_lookup hc
        have hw := List.all_eq_true.mp hinner _ hm
        cases w with
        | vint m =>
          simp [dictGet, dictGetD, resolveCached, isNone, hl, hd, hc, pyMethodGetD]
        | vnone => simp [isVint] at hw
        | vdict z => simp [isVint] at hw
  · simp [dictGet, dictGetD, resolveCached, isNone, hl]

/-- On every wellShaped usage mapping, _parse_usage succeeds and computes the
spec-side first-present-wins resolutions. -/
theorem parse_usage_resolves (d : List (String × PyVal)) (h : wellShaped d = true) :
    parse_usage d = .ok ⟨resolveChain d ["prompt_tokens", "input_tokens", "tokens"],
      resolveChain d ["completion_tokens", "output_tokens"], resolveCached d,
      resolveChain d ["total_tokens", "tokens"]⟩ := by
  simp only [parse_usage]
  rw [cached_ok h]
  rw [chain3_ok h "prompt_tokens" "input_tokens" "tokens" (by decide) (by decide) (by decide)]
  rw [chain2_ok h "completion_tokens" "output_tokens" (by decide) (by decide)]
  rw [chain2_ok h "total_tokens" "tokens" (by decide) (by decide)]
  simp [pyInt_pyOrZero_vint]

/-- C5: on every usage mapping of integer counters (with
input_tokens_details, if present, a nested mapping of integers), _parse_usage
resolves each counter by first-present-wins fallback in the claimed key
order, defaulting to 0, and a mapping carrying only the legacy tokens field
yields prompt = total = that value and completion = cached = 0. -/
theorem c5_usage_resolution (d : List (String × PyVal)) (h : wellShaped d = true) :
    parse_usage d = .ok ⟨resolveChain d ["prompt_tokens", "input_tokens", "tokens"],
      resolveChain d ["completion_tokens", "output_tokens"], resolveCached d,
      resolveChain d ["total_tokens", "tokens"]⟩ ∧
    ∀ v : Int, parse_usage [("tokens", .vint v)] = .ok ⟨v, 0, 0, v⟩ := by
  refine ⟨parse_usage_resolves d h, fun v => ?_⟩
  rw [parse_usage_resolves [("tokens", PyVal.vint v)] (by simp [wellShaped, isVint])]
  simp [resolveChain, resolveCached, List.lookup]

/-- Witness for C5: the resolution theorem applied to a concrete mapping
exercising a direct hit, the nested cached fallback and a default. -/
theorem c5_usage_resolution_witness :
    wellShaped [("prompt_tokens", PyVal.vint 3),
      ("input_tokens_details", PyVal.vdict [("cached_tokens", PyVal.vint 2)]),
      ("total_tokens", PyVal.vint 9)] = true ∧
    (parse_usage [("prompt_tokens", PyVal.vint 3),
        ("input_tokens_details", PyVal.vdict [("cached_tokens", PyVal.vint 2)]),
        ("total_tokens", PyVal.vint 9)] =
      .ok ⟨resolveChain [("prompt_tokens", PyVal.vint 3),
          ("input_tokens_details", PyVal.vdict [("cached_tokens", PyVal.vint 2)]),
          ("total_tokens", PyVal.vint 9)] ["prompt_tokens", "input_tokens", "tokens"],
        resolveChain [("prompt_tokens", PyVal.vint 3),
          ("input_tokens_details", PyVal.vdict [("cached_tokens", PyVal.vint 2)]),
          ("total_tokens", PyVal.vint 9)] ["completion_tokens", "output_tokens"],
        resolveCached [("prompt_tokens", PyVal.vint 3),
          ("input_tokens_details", PyVal.vdict [("cached_tokens", PyVal.vint 2)]),
          ("total_tokens", PyVal.vint 9)],
        resolveChain [("prompt_tokens", PyVal.vint 3),
          ("input_tokens_details", PyVal.vdict [("cached_tokens", PyVal.vint 2)]),
          ("total_tokens", PyVal.vint 9)] ["total_tokens", "tokens"]⟩ ∧
      ∀ v : Int, parse_usage [("tokens", PyVal.vint v)] = .ok ⟨v, 0, 0, v⟩) :=
  ⟨by decide, c5_usage_resolution _ (by decide)⟩

/-- A top-level integer of a nonnegVals mapping is non-negative. -/
theorem nonneg_top {d : List (String × PyVal)} (h : nonnegVals d = true)
    {k : String} {n : Int} (hm : (k, PyVal.vint n) ∈ d) : 0 ≤ n := by
  have hp := List.all_eq_true.mp h _ hm
  simpa using hp

/-- A nested integer of a nonnegVals mapping is non-negative. -/
theorem nonneg_nested {d : List (String × PyVal)} (h : nonnegVals d = true)
    {k : String} {inner : List (String × PyVal)} (hm : (k, PyVal.vdict inner) ∈ d)
    {k2 : String} {m : Int} (hm2 : (k2, PyVal.vint m) ∈ inner) : 0 ≤ m := by
  have hp := List.all_eq_true.mp h _ hm
  simp only [nonnegVals] at hp
  have hq := List.all_eq_true.mp hp _ hm2
  simpa using hq

/-- On a wellShapedN mapping, a plain get of a counter key is an
integer-or-None value whose integer is non-negative when the mapping is. -/
theorem dictGet_intish {d : List (String × PyVal)} (h : wellShapedN d = true)
    (k : String) (hk : (k == "input_tokens_details") = false) :
    isIntish (dictGet d k) = true ∧
      (nonnegVals d = true → 0 ≤ intOf (dictGet d k)) := by
  rcases wellShapedN_lookup h k hk with hl | hl | ⟨n, hl⟩
  · simp [dictGet, hl, isIntish, intOf]
  · simp [dictGet, hl, isIntish, intOf]
  · refine ⟨by simp [dictGet, hl, isIntish], fun hn => ?_⟩
    have := nonneg_top hn (mem_of_lookup hl)
    simpa [dictGet, hl, intOf] using this

/-- On a wellShapedN mapping, a defaulted get of a counter key with an
integer-or-None default is an integer-or-None value whose integer is
non-negative when the mapping and the default are. -/
theorem dictGetD_intish {d : List (String × PyVal)} (h : wellShapedN d = true)
    (k : String) (hk : (k == "input_tokens_details") = false) (dflt : PyVal)
    (hd : isIntish dflt = true) (hdn : nonnegVals d = true → 0 ≤ intOf dflt) :
    isIntish (dictGetD d k dflt) = true ∧
      (nonnegVals d = true → 0 ≤ intOf (dictGetD d k dflt)) := by
  rcases wellShapedN_lookup h k hk with hl | hl | ⟨n, hl⟩
  · simpa [dictGetD, hl] using ⟨hd, hdn⟩
  · simp [dictGetD, hl, isIntish, intOf]
  · refine ⟨by simp [dictGetD, hl, isIntish], fun hn => ?_⟩
    have := nonneg_top hn (mem_of_lookup hl)
    simpa [dictGetD, hl, intOf] using this

/-- On a wellShapedN mapping, the cached step of _parse_usage succeeds with
an integer-or-None value, non-negative when the mapping is. -/
theorem cached_intish {d : List (String × PyVal)} (h : wellShapedN d = true) :
    ∃ cv, (if isNone (dictGet d "cached_tokens") then
        pyMethodGetD (dictGetD d "input_tokens_details" (.vdict []))
          "cached_tokens" (.vint 0)
      else .ok (dictGet d "cached_tokens")) = .ok cv ∧ isIntish cv = true ∧
      (nonnegVals d = true → 0 ≤ intOf cv) := by
  rcases wellShapedN_lookup h "cached_tokens" (by decide) with hl | hl | ⟨n, hl⟩
  · rcases wellShapedN_details h with hdt | ⟨inner, hdt, hinner⟩
    · exact ⟨.vint 0, by simp [dictGet, dictGetD, isNone, hl, hdt, pyMethodGetD],
        by simp [isIntish], by simp [intOf]⟩
    · cases hc : List.lookup "cached_tokens" inner with
      | none =>
        exact ⟨.vint 0, by simp [dictGet, dictGetD, isNone, hl, hdt, hc, pyMethodGetD],
          by simp [isIntish], by simp [intOf]⟩
      | some w =>
        have hw := List.all_eq_true.mp hinner _ (mem_of_lookup hc)
        refine ⟨w, by simp [dictGet, dictGetD, isNone, hl, hdt, hc, pyMethodGetD], hw, ?_⟩
        intro hn
        cases w with
        | vint m => simpa [intOf] using nonneg_nested hn (mem_of_lookup hdt) (mem_of_lookup hc)
        | vnone => simp [intOf]
        | vdict z => simp [isIntish] at hw
  · rcases wellShapedN_details h with hdt | ⟨inner, hdt, hinner⟩
    · exact ⟨.vint 0, by simp [dictGet, dictGetD, isNone, hl, hdt, pyMethodGetD],
        by simp [isIntish], by simp [intOf]⟩
    · cases hc : List.lookup "cached_tokens" inner with
      | none =>
        exact ⟨.vint 0, by simp [dictGet, dictGetD, isNone, hl, hdt, hc, pyMethodGetD],
          by simp [isIntish], by simp [intOf]⟩
      | some w =>
        have hw := List.all_eq_true.mp hinner _ (mem_of_lookup hc)
        refine ⟨w, by simp [dictGet, dictGetD, isNone, hl, hdt, hc, pyMethodGetD], hw, ?_⟩
        intro hn
        cases w with
        | vint m => simpa [intOf] using nonneg_nested hn (mem_of_lookup hdt) (mem_of_lookup hc)
        | vnone => simp [intOf]
        | vdict z => simp [isIntish] at hw
  · refine ⟨.vint n, by simp [dictGet, isNone, hl], by simp [isIntish], fun hn => ?_⟩
    simpa [intOf] using nonneg_top hn (mem_of_lookup hl)

/-- On a wellShapedN mapping, the is-None fallback between a plain get and an
already well-behaved alternative is integer-or-None and non-negative when
the mapping is. -/
theorem ifChain_intish {d : List (String × PyVal)} (h : wellShapedN d = true)
    (k : String) (hk : (k == "input_tokens_details") = false) (alt : PyVal)
    (ha : isIntish alt = true) (han : nonnegVals d = true → 0 ≤ intOf alt) :
    isIntish (if isNone (dictGet d k) then alt else dictGet d k) = true ∧
      (nonnegVals d = true →
        0 ≤ intOf (if isNone (dictGet d k) then alt else dictGet d k)) := by
  cases hn : isNone (dictGet d k) with
  | true => simpa [hn] using ⟨ha, han⟩
  | false => simpa [hn] using dictGet_intish h k hk

/-- C6 (amended): over usage mappings whose values are integers or None
(with input_tokens_details, if present, a nested mapping of integer-or-None
values), normalization is total; every field of the result is an integer
that is non-negative whenever every integer stored in the mapping is; and a
missing or None value at every fallback yields 0, as on the empty mapping. -/
theorem c6_total_nonneg (d : List (String × PyVal)) (h : wellShapedN d = true) :
    (∃ r, parse_usage d = .ok r) ∧
    (nonnegVals d = true → ∀ r, parse_usage d = .ok r →
      0 ≤ r.prompt_tokens ∧ 0 ≤ r.completion_tokens ∧
      0 ≤ r.cached_tokens ∧ 0 ≤ r.total_tokens) ∧
    parse_usage [] = .ok ⟨0, 0, 0, 0⟩ := by
  obtain ⟨cv, hcveq, hcvi, hcvn⟩ := cached_intish h
  have hTok := dictGetD_intish h "tokens" (by decide) (.vint 0)
    (by simp [isIntish]) (fun _ => by simp [intOf])
  have hIn := dictGetD_intish h "input_tokens" (by decide)
    (dictGetD d "tokens" (.vint 0)) hTok.1 hTok.2
  have hOut := dictGetD_intish h "output_tokens" (by decide) (.vint 0)
    (by simp [isIntish]) (fun _ => by simp [intOf])
  have hP := ifChain_intish h "prompt_tokens" (by decide) _ hIn.1 hIn.2
  have hC := ifChain_intish h "completion_tokens" (by decide) _ hOut.1 hOut.2
  have hT := ifChain_intish h "total_tokens" (by decide) _ hTok.1 hTok.2
  have hmain : parse_usage d = .ok
      ⟨intOf (if isNone (dictGet d "prompt_tokens") then
          dictGetD d "input_tokens" (dictGetD d "tokens" (.vint 0))
        else dictGet d "prompt_tokens"),
       intOf (if isNone (dictGet d "completion_tokens") then
          dictGetD d "output_tokens" (.vint 0)
        else dictGet d "completion_tokens"),
       intOf cv,
       intOf (if isNone (dictGet d "total_tokens") then
          dictGetD d "tokens" (.vint 0)
        else dictGet d "total_tokens")⟩ := by
    simp only [parse_usage]
    rw [hcveq]
    rw [pyInt_pyOrZero_intish _ hP.1]
    rw [pyInt_pyOrZero_intish _ hC.1]
    rw [pyInt_pyOrZero_intish _ hT.1]
    simp [pyInt_pyOrZero_intish _ hcvi]
  refine ⟨⟨_, hmain⟩, ?_, by rfl⟩
  intro hnn r hr
  rw [hmain] at hr
  simp only [Except.ok.injEq] at hr
  subst hr
  exact ⟨hP.2 hnn, hC.2 hnn, hcvn hnn, hT.2 hnn⟩

/-- Witness for C6 (amended): the theorem applied to a concrete mapping with
a stored None, a nested cached counter and non-negative integers. -/
theorem c6_total_nonneg_witness :
    wellShapedN [("prompt_tokens", PyVal.vnone), ("tokens", PyVal.vint 7),
      ("input_tokens_details", PyVal.vdict [("cached_tokens", PyVal.vint 4)])] = true ∧
    ((∃ r, parse_usage [("prompt_tokens", PyVal.vnone), ("tokens", PyVal.vint 7),
        ("input_tokens_details",
          PyVal.vdict [("cached_tokens", PyVal.vint 4)])] = .ok r) ∧
      (nonnegVals [("prompt_tokens", PyVal.vnone), ("tokens", PyVal.vint 7),
          ("input_tokens_details", PyVal.vdict [("cached_tokens", PyVal.vint 4)])] = true →
        ∀ r, parse_usage [("prompt_tokens", PyVal.vnone), ("tokens", PyVal.vint 7),
            ("input_tokens_details",
              PyVal.vdict [("cached_tokens", PyVal.vint 4)])] = .ok r →
          0 ≤ r.prompt_tokens ∧ 0 ≤ r.completion_tokens ∧
          0 ≤ r.cached_tokens ∧ 0 ≤ r.total_tokens) ∧
      parse_usage [] = .ok ⟨0, 0, 0, 0⟩) :=
  ⟨by rfl, c6_total_nonneg _ (by rfl)⟩

/-- Counterexample for C6 as stated: _parse_usage does not coerce to
non-negative - a mapping reporting a negative counter yields a negative
field - and it is not total over arbitrary mappings - a None stored under
input_tokens_details makes the nested get raise AttributeError. -/
theorem c6_counterexample :
    parse_usage [("prompt_tokens", PyVal.vint (-5))] = .ok ⟨-5, 0, 0, 0⟩ ∧
    ¬ (0 ≤ (-5 : Int)) ∧
    parse_usage [("input_tokens_details", PyVal.vnone)] = .error "AttributeError" :=
  ⟨rfl, by decide, rfl⟩

/-- C4 (amended): for every history file and every max_history bound of at
least 1, retention keeps exactly the trailing max_history lines in order
when the file had more, is a no-op on a file with at most max_history lines,
is a no-op on a missing file, is idempotent, and never leaves more than
max_history lines.  The bound 0 (and negative bounds) must be excluded:
lines[-0:] is the whole list, see the counterexample. -/
theorem c4_retention (maxH : Int) (hmax : 1 ≤ maxH) :
    (∀ ls : List String, (ls.length : Int) > maxH →
      trim_history maxH (some ls) = some (ls.drop (ls.length - maxH.toNat)) ∧
      ((trim_history maxH (some ls)).getD []).length = maxH.toNat) ∧
    (∀ ls : List String, (ls.length : Int) ≤ maxH →
      trim_history maxH (some ls) = some ls) ∧
    trim_history maxH none = none ∧
    (∀ f, trim_history maxH (trim_history maxH f) = trim_history maxH f) ∧
    (∀ f ls, trim_history maxH f = some ls → (ls.length : Int) ≤ maxH) := by
  have hkey : ∀ ls : List String, (ls.length : Int) > maxH →
      trim_history maxH (some ls) = some (ls.drop (ls.length - maxH.toNat)) := by
    intro ls hl
    simp only [trim_history, pySliceFrom]
    rw [if_pos hl, if_neg (by omega)]
    congr 2
    omega
  have hnoop : ∀ ls : List String, (ls.length : Int) ≤ maxH →
      trim_history maxH (some ls) = some ls := by
    intro ls hl
    simp only [trim_history]
    rw [if_neg (not_lt.mpr hl)]
  refine ⟨?_, hnoop, rfl, ?_, ?_⟩
  · intro ls hl
    refine ⟨hkey ls hl, ?_⟩
    rw [hkey ls hl]
    simp only [Option.getD_some, List.length_drop]
    omega
  · intro f
    cases f with
    | none => rfl
    | some ls =>
      by_cases hl : (ls.length : Int) > maxH
      · rw [hkey ls hl]
        refine hnoop _ ?_
        simp only [List.length_drop]
        omega
      · rw [hnoop ls (not_lt.mp hl), hnoop ls (not_lt.mp hl)]
  · intro f ls hf
    cases f with
    | none => simp [trim_history] at hf
    | some xs =>
      by_cases hl : (xs.length : Int) > maxH
      · rw [hkey xs hl] at hf
        simp only [Option.some.injEq] at hf
        subst hf
        simp only [List.length_drop]
        omega
      · rw [hnoop xs (not_lt.mp hl)] at hf
        simp only [Option.some.injEq] at hf
        subst hf
        exact not_lt.mp hl

/-- Witness for C4 (amended): the retention theorem applied at bound 2. -/
theorem c4_retention_witness :
    (1 : Int) ≤ 2 ∧
    ((∀ ls : List String, (ls.length : Int) > 2 →
      trim_history 2 (some ls) = some (ls.drop (ls.length - (2 : Int).toNat)) ∧
      ((trim_history 2 (some ls)).getD []).length = (2 : Int).toNat) ∧
    (∀ ls : List String, (ls.length : Int) ≤ 2 →
      trim_history 2 (some ls) = some ls) ∧
    trim_history 2 none = none ∧
    (∀ f, trim_history 2 (trim_history 2 f) = trim_history 2 f) ∧
    (∀ f ls, trim_history 2 f = some ls → (ls.length : Int) ≤ 2)) :=
  ⟨by decide, c4_retention 2 (by decide)⟩

/-- Counterexample for C4 as stated: with max_history 0 and a one-line file,
trim_history keeps the line (lines[-0:] is the whole list), so the file does
not contain exactly the trailing 0 lines and the line count exceeds the
bound after enforcement. -/
theorem c4_counterexample :
    trim_history 0 (some ["a"]) = some ["a"] ∧
    ((trim_history 0 (some ["a"])).getD []).length = 1 := ⟨rfl, rfl⟩

/-- Field-wise addition of usage records is associative. -/
theorem addUsage_assoc (a b c : UsageRecord) :
    addUsage (addUsage a b) c = addUsage a (addUsage b c) := by
  simp [addUsage, add_assoc]

/-- Field-wise addition of usage records is commutative. -/
theorem addUsage_comm (a b : UsageRecord) : addUsage a b = addUsage b a := by
  simp [addUsage, add_comm]

/-- The empty cumulative record is a left identity. -/
theorem addUsage_zero_left (a : UsageRecord) : addUsage zeroUsage a = a := by
  simp [addUsage, zeroUsage]

/-- The empty cumulative record is a right identity. -/
theorem addUsage_zero_right (a : UsageRecord) : addUsage a zeroUsage = a := by
  simp [addUsage, zeroUsage]

/-- Field-wise sum over a cons. -/
theorem sumRecords_cons (r : UsageRecord) (rs : List UsageRecord) :
    sumRecords (r :: rs) = addUsage r (sumRecords rs) := by
  simp [sumRecords, addUsage]

/-- Folding update_stats over turns whose usage parses accumulates the
field-wise sum onto the accumulator. -/
theorem foldStats_go (usages : List (List (String × PyVal))) :
    ∀ (rs : List UsageRecord) (acc : UsageRecord),
      usages.map parse_usage = rs.map Except.ok →
      List.foldlM update_stats acc usages = .ok (addUsage acc (sumRecords rs)) := by
  induction usages with
  | nil =>
    intro rs acc h
    cases rs with
    | nil => simp [List.foldlM, sumRecords, addUsage, pure, Except.pure]
    | cons r rs => simp at h
  | cons u us ih =>
    intro rs acc h
    cases rs with
    | nil => simp at h
    | cons r rs =>
      simp only [List.map_cons, List.cons.injEq] at h
      obtain ⟨h1, h2⟩ := h
      rw [List.foldlM_cons, update_stats, h1]
      simp only [Except.map]
      show List.foldlM update_stats (addUsage acc r) us = _
      rw [ih rs (addUsage acc r) h2, sumRecords_cons, addUsage_assoc]

/-- C7: the cumulative usage of a session whose turns all carry parsing
usage equals the field-wise sum of the turns' normalized records, and the
aggregation is associative, commutative and order-independent. -/
theorem c7_cumulative (usages : List (List (String × PyVal)))
    (rs : List UsageRecord) (h : usages.map parse_usage = rs.map Except.ok) :
    foldStats usages = .ok (sumRecords rs) ∧
    (∀ a b c : UsageRecord, addUsage (addUsage a b) c = addUsage a (addUsage b c)) ∧
    (∀ a b : UsageRecord, addUsage a b = addUsage b a) ∧
    (∀ rs1 rs2 : List UsageRecord, rs1.Perm rs2 → sumRecords rs1 = sumRecords rs2) := by
  refine ⟨?_, addUsage_assoc, addUsage_comm, ?_⟩
  · rw [foldStats, foldStats_go usages rs zeroUsage h, addUsage_zero_left]
  · intro rs1 rs2 hp
    simp only [sumRecords, UsageRecord.mk.injEq]
    exact ⟨(hp.map _).sum_eq, (hp.map _).sum_eq, (hp.map _).sum_eq, (hp.map _).sum_eq⟩

/-- Witness for C7: a two-turn session, one legacy usage mapping and one
prompt-only mapping. -/
theorem c7_cumulative_witness :
    [[("tokens", PyVal.vint 5)], [("prompt_tokens", PyVal.vint 2)]].map parse_usage =
      [(⟨5, 0, 0, 5⟩ : UsageRecord), ⟨2, 0, 0, 0⟩].map Except.ok ∧
    (foldStats [[("tokens", PyVal.vint 5)], [("prompt_tokens", PyVal.vint 2)]] =
      .ok (sumRecords [(⟨5, 0, 0, 5⟩ : UsageRecord), ⟨2, 0, 0, 0⟩]) ∧
    (∀ a b c : UsageRecord, addUsage (addUsage a b) c = addUsage a (addUsage b c)) ∧
    (∀ a b : UsageRecord, addUsage a b = addUsage b a) ∧
    (∀ rs1 rs2 : List UsageRecord, rs1.Perm rs2 → sumRecords rs1 = sumRecords rs2)) :=
  ⟨rfl, c7_cumulative _ _ rfl⟩

/-- C1 (amended): an interrupt delivered while the request of a turn is in
flight raises KeyboardInterrupt, which nothing inside the loop catches: the
transcript keeps the just-appended user message and gains no assistant
message, but the session does not return to the prompt - the exception
escapes run_repl, the handler in main exits the process with code 0, the
remaining inputs are never read, no summary call is made and the history
file is untouched. -/
theorem c1_inflight_interrupt (statsLevel : Option String) (gw : Nat → GwResult)
    (maxH : Int) (ts : String) (e : String) (rest : List String) (st0 : ReplState)
    (h0 : Option (List String)) (hexit : pyStrip e ≠ "exit") (hquit : pyStrip e ≠ "quit")
    (hempty : pyStrip e ≠ "") (hmeta : pyStartsWith (pyStrip e) ":" = false)
    (hgw : gw st0.gwCalls = .interrupted) :
    run_repl statsLevel gw maxH ts (e :: rest) st0 h0 =
      ⟨{ st0 with transcript := st0.transcript ++ [Message.mk "user" (pyStrip e)], gwCalls := st0.gwCalls + 1 }, h0, .kbInterrupt, rest, none, 0⟩ := by
  simp [run_repl, replLoop, hexit, hquit, hempty, hmeta, hgw, mainExitCode]

/-- Witness for C1 (amended): a concrete in-flight interrupt on the first
turn, with one further prompt pending. -/
theorem c1_inflight_interrupt_witness :
    pyStrip "ls -la" ≠ "exit" ∧ pyStrip "ls -la" ≠ "quit" ∧ pyStrip "ls -la" ≠ "" ∧
    pyStartsWith (pyStrip "ls -la") ":" = false ∧
    run_repl none (fun _ => GwResult.interrupted) 10 "ts" ["ls -la", "next"]
        ⟨[], zeroUsage, 0⟩ none =
      ⟨{ (⟨[], zeroUsage, 0⟩ : ReplState) with
          transcript := (⟨[], zeroUsage, 0⟩ : ReplState).transcript ++
            [Message.mk "user" (pyStrip "ls -la")],
          gwCalls := (⟨[], zeroUsage, 0⟩ : ReplState).gwCalls + 1 },
        none, .kbInterrupt, ["next"], none, 0⟩ :=
  ⟨by decide, by decide, by decide, by decide,
    c1_inflight_interrupt none (fun _ => GwResult.interrupted) 10 "ts" "ls -la"
      ["next"] ⟨[], zeroUsage, 0⟩ none (by decide) (by decide) (by decide)
      (by decide) rfl⟩

/-- Counterexample for C1 as stated: on a concrete session where the first
request is interrupted, the transcript does keep the user message and gains
no assistant message, but the loop does not reach AwaitingInput again - the
KeyboardInterrupt ends the session (exit code 0 in main) and the further
prompt is never accepted. -/
theorem c1_counterexample :
    (run_repl none (fun _ => GwResult.interrupted) 10 "ts" ["list files", "second"]
        ⟨[], zeroUsage, 0⟩ none).st.transcript = [Message.mk "user" "list files"] ∧
    (run_repl none (fun _ => GwResult.interrupted) 10 "ts" ["list files", "second"]
        ⟨[], zeroUsage, 0⟩ none).outcome = .kbInterrupt ∧
    (run_repl none (fun _ => GwResult.interrupted) 10 "ts" ["list files", "second"]
        ⟨[], zeroUsage, 0⟩ none).remaining = ["second"] ∧
    (run_repl none (fun _ => GwResult.interrupted) 10 "ts" ["list files", "second"]
        ⟨[], zeroUsage, 0⟩ none).remaining ≠ [] := by
  decide

/-- C2 (amended): a gateway failure is fatal in interactive mode too -
make_api_request exits the process on any failure, and the SystemExit(1)
passes the handlers of main untouched, so the turn's user message stays in
the transcript, no warning-and-continue happens, the remaining prompts are
never read, the history is untouched and the process exits with code 1; in
one-shot mode a gateway failure likewise exits with code 1. -/
theorem c2_gateway_failure (statsLevel : Option String) (gw : Nat → GwResult)
    (maxH : Int) (ts : String) (e : String) (rest : List String) (st0 : ReplState)
    (h0 : Option (List String)) (rawPrompt : String)
    (hexit : pyStrip e ≠ "exit") (hquit : pyStrip e ≠ "quit") (hempty : pyStrip e ≠ "")
    (hmeta : pyStartsWith (pyStrip e) ":" = false) (hgw : gw st0.gwCalls = .failure)
    (hgw0 : gw 0 = .failure) (hp : pyStrip rawPrompt ≠ "") :
    run_repl statsLevel gw maxH ts (e :: rest) st0 h0 =
      ⟨{ st0 with transcript := st0.transcript ++ [Message.mk "user" (pyStrip e)], gwCalls := st0.gwCalls + 1 }, h0, .systemExit 1, rest, none, 1⟩ ∧
    (oneShot gw maxH rawPrompt h0).2 = 1 := by
  constructor
  · simp [run_repl, replLoop, hexit, hquit, hempty, hmeta, hgw, mainExitCode]
  · simp [oneShot, hp, hgw0]

/-- Witness for C2 (amended): a concrete failing request in an interactive
session and in a one-shot invocation. -/
theorem c2_gateway_failure_witness :
    pyStrip "ls -la" ≠ "exit" ∧ pyStrip "ls -la" ≠ "quit" ∧ pyStrip "ls -la" ≠ "" ∧
    pyStartsWith (pyStrip "ls -la") ":" = false ∧ pyStrip "hello" ≠ "" ∧
    (run_repl none (fun _ => GwResult.failure) 10 "ts" ["ls -la", "next"]
        ⟨[], zeroUsage, 0⟩ none =
      ⟨{ (⟨[], zeroUsage, 0⟩ : ReplState) with
          transcript := (⟨[], zeroUsage, 0⟩ : ReplState).transcript ++
            [Message.mk "user" (pyStrip "ls -la")],
          gwCalls := (⟨[], zeroUsage, 0⟩ : ReplState).gwCalls + 1 },
        none, .systemExit 1, ["next"], none, 1⟩ ∧
    (oneShot (fun _ => GwResult.failure) 10 "hello" none).2 = 1) :=
  ⟨by decide, by decide, by decide, by decide, by decide,
    c2_gateway_failure none (fun _ => GwResult.failure) 10 "ts" "ls -la" ["next"]
      ⟨[], zeroUsage, 0⟩ none "hello" (by decide) (by decide) (by decide)
      (by decide) rfl rfl (by decide)⟩

/-- Counterexample for C2 as stated: on a concrete interactive session whose
first request fails, the session does not continue at the next prompt - the
process ends with exit code 1 and the pending prompt is never read. -/
theorem c2_counterexample :
    (run_repl none (fun _ => GwResult.failure) 10 "ts" ["list files", "second"]
        ⟨[], zeroUsage, 0⟩ none).outcome = .systemExit 1 ∧
    (run_repl none (fun _ => GwResult.failure) 10 "ts" ["list files", "second"]
        ⟨[], zeroUsage, 0⟩ none).exitCode = 1 ∧
    (run_repl none (fun _ => GwResult.failure) 10 "ts" ["list files", "second"]
        ⟨[], zeroUsage, 0⟩ none).remaining = ["second"] := by
  decide

/-- C8: when the loop ends normally with a non-empty transcript, exactly one
additional gateway call is made, carrying the transcript plus the final
summary-request message; the summary persisted is the first line only of the
returned text; the history file gains exactly a blank separator line, a
timestamp comment line and a sentinel line, after which retention is
enforced.  With an empty transcript no summary call and no history write
occur. -/
theorem c8_summary (statsLevel : Option String) (gw : Nat → GwResult) (maxH : Int)
    (ts : String) (st : ReplState) (h0 : Option (List String)) (t : String)
    (u : Option (List (String × PyVal))) (s0 : String) (tl : List String)
    (hgw : gw st.gwCalls = .success t u) (hs : pySplitlines t = s0 :: tl)
    (hok : statsOk statsLevel u = true) :
    (st.transcript ≠ [] →
      (finishSession statsLevel gw maxH ts st h0).st.gwCalls = st.gwCalls + 1 ∧
      (finishSession statsLevel gw maxH ts st h0).summaryPrompt =
        some (st.transcript ++ [Message.mk "user" summaryInstruction]) ∧
      (finishSession statsLevel gw maxH ts st h0).history =
        trim_history maxH (some (h0.getD [] ++ ["", "# " ++ ts, "+" ++ s0])) ∧
      (finishSession statsLevel gw maxH ts st h0).outcome = .normal) ∧
    (st.transcript = [] →
      finishSession statsLevel gw maxH ts st h0 = ⟨st, h0, .normal, none⟩) := by
  constructor
  · intro hne
    rcases statsLevel with _ | lvl
    · simp [finishSession, if_neg hne, hgw, hs]
    · rcases u with _ | uu
      · simp [finishSession, if_neg hne, hgw, hs]
      · cases hps : parse_usage uu with
        | error m => simp [statsOk, hps] at hok
        | ok r => simp [finishSession, if_neg hne, hgw, hs, hps, Except.map]
  · intro he
    simp [finishSession, he]

/-- Witness for C8: a two-message transcript, a two-line summary reply with
usage, and a one-line prior history. -/
theorem c8_summary_witness :
    (fun _ : Nat => GwResult.success "List directory contents\nextra"
        (some [("tokens", PyVal.vint 5)]))
      (⟨[Message.mk "user" "list files", Message.mk "assistant" "ls -la"],
        zeroUsage, 1⟩ : ReplState).gwCalls =
      .success "List directory contents\nextra" (some [("tokens", PyVal.vint 5)]) ∧
    pySplitlines "List directory contents\nextra" = ["List directory contents", "extra"] ∧
    statsOk (some "basic") (some [("tokens", PyVal.vint 5)]) = true ∧
    (((⟨[Message.mk "user" "list files", Message.mk "assistant" "ls -la"],
        zeroUsage, 1⟩ : ReplState).transcript ≠ [] →
      (finishSession (some "basic")
        (fun _ => GwResult.success "List directory contents\nextra"
          (some [("tokens", PyVal.vint 5)])) 10 "2024-01-01T00:00:00"
        ⟨[Message.mk "user" "list files", Message.mk "assistant" "ls -la"],
          zeroUsage, 1⟩ (some ["old"])).st.gwCalls =
        (⟨[Message.mk "user" "list files", Message.mk "assistant" "ls -la"],
          zeroUsage, 1⟩ : ReplState).gwCalls + 1 ∧
      (finishSession (some "basic")
        (fun _ => GwResult.success "List directory contents\nextra"
          (some [("tokens", PyVal.vint 5)])) 10 "2024-01-01T00:00:00"
        ⟨[Message.mk "user" "list files", Message.mk "assistant" "ls -la"],
          zeroUsage, 1⟩ (some ["old"])).summaryPrompt =
        some ((⟨[Message.mk "user" "list files", Message.mk "assistant" "ls -la"],
          zeroUsage, 1⟩ : ReplState).transcript ++
            [Message.mk "user" summaryInstruction]) ∧
      (finishSession (some "basic")
        (fun _ => GwResult.success "List directory contents\nextra"
          (some [("tokens", PyVal.vint 5)])) 10 "2024-01-01T00:00:00"
        ⟨[Message.mk "user" "list files", Message.mk "assistant" "ls -la"],
          zeroUsage, 1⟩ (some ["old"])).history =
        trim_history 10 (some ((some ["old"]).getD [] ++
          ["", "# " ++ "2024-01-01T00:00:00", "+" ++ "List directory contents"])) ∧
      (finishSession (some "basic")
        (fun _ => GwResult.success "List directory contents\nextra"
          (some [("tokens", PyVal.vint 5)])) 10 "2024-01-01T00:00:00"
        ⟨[Message.mk "user" "list files", Message.mk "assistant" "ls -la"],
          zeroUsage, 1⟩ (some ["old"])).outcome = .normal) ∧
    ((⟨[Message.mk "user" "list files", Message.mk "assistant" "ls -la"],
        zeroUsage, 1⟩ : ReplState).transcript = [] →
      finishSession (some "basic")
        (fun _ => GwResult.success "List directory contents\nextra"
          (some [("tokens", PyVal.vint 5)])) 10 "2024-01-01T00:00:00"
        ⟨[Message.mk "user" "list files", Message.mk "assistant" "ls -la"],
          zeroUsage, 1⟩ (some ["old"]) =
        ⟨⟨[Message.mk "user" "list files", Message.mk "assistant" "ls -la"],
          zeroUsage, 1⟩, some ["old"], .normal, none⟩)) :=
  ⟨rfl, by decide, by decide,
    c8_summary (some "basic")
      (fun _ => GwResult.success "List directory contents\nextra"
        (some [("tokens", PyVal.vint 5)])) 10 "2024-01-01T00:00:00"
      ⟨[Message.mk "user" "list files", Message.mk "assistant" "ls -la"],
        zeroUsage, 1⟩ (some ["old"]) "List directory contents\nextra"
      (some [("tokens", PyVal.vint 5)]) "List directory contents" ["extra"]
      rfl (by decide) (by decide)⟩

/-- C9: if the summary call returns the empty string, splitlines()[0] raises
IndexError before any history write: the session ends in an error (exit code
1 through the handlers of main) and the history file is unchanged. -/
theorem c9_empty_summary (statsLevel : Option String) (gw : Nat → GwResult)
    (maxH : Int) (ts : String) (st : ReplState) (h0 : Option (List String))
    (u : Option (List (String × PyVal))) (hne : st.transcript ≠ [])
    (hgw : gw st.gwCalls = .success "" u) :
    (finishSession statsLevel gw maxH ts st h0).outcome = .exc "IndexError" ∧
    (finishSession statsLevel gw maxH ts st h0).history = h0 ∧
    mainExitCode (finishSession statsLevel gw maxH ts st h0).outcome = 1 := by
  have hsplit : pySplitlines "" = [] := rfl
  simp [finishSession, if_neg hne, hgw, hsplit, mainExitCode]

/-- Witness for C9: a concrete session whose summary reply is empty. -/
theorem c9_empty_summary_witness :
    ((⟨[Message.mk "user" "x"], zeroUsage, 1⟩ : ReplState).transcript ≠ []) ∧
    (fun _ : Nat => GwResult.success "" none)
        (⟨[Message.mk "user" "x"], zeroUsage, 1⟩ : ReplState).gwCalls =
      .success "" none ∧
    ((finishSession none (fun _ => GwResult.success "" none) 10 "ts"
        ⟨[Message.mk "user" "x"], zeroUsage, 1⟩ (some ["old"])).outcome =
      .exc "IndexError" ∧
    (finishSession none (fun _ => GwResult.success "" none) 10 "ts"
        ⟨[Message.mk "user" "x"], zeroUsage, 1⟩ (some ["old"])).history =
      some ["old"] ∧
    mainExitCode (finishSession none (fun _ => GwResult.success "" none) 10 "ts"
        ⟨[Message.mk "user" "x"], zeroUsage, 1⟩ (some ["old"])).outcome = 1) :=
  ⟨by decide, rfl,
    c9_empty_summary none (fun _ => GwResult.success "" none) 10 "ts"
      ⟨[Message.mk "user" "x"], zeroUsage, 1⟩ (some ["old"]) none (by decide) rfl⟩

/-- C3: evaluation of the interrupt controller composed with the handlers of
main at the failing input.  A single idle interrupt does not exit (the time
is recorded and the loop continues), as the claim says; but a second idle
interrupt half a second later raises typer.Exit() - exit_code 0 - which is a
RuntimeError, so the except Exception handler of main catches it and
re-raises typer.Exit(1): the process exits with code 1, not 0 as the claim
and the handler itself intend. -/
theorem c3_divergence :
    runIdleInterrupts [100] 0 = (none, 100) ∧
    runIdleInterrupts [100, 100 + 1/2] 0 = (some 1, 100) ∧
    handle_sigint false 100 (100 + 1/2) = .raiseTyperExit ∧
    mainExitCode (.typerExit 0) = 1 := by
  norm_num [runIdleInterrupts, handle_sigint, mainExitCode]

/-- C10: in one-shot mode the stripped prompt is appended to the history and
retention is enforced before the prompt is validated as non-empty, so an
invocation whose prompt strips to empty still exits with code 1 while the
history file has already been modified by the append (here: when the bound
leaves room, the file has gained one line). -/
theorem c10_history_before_validation (gw : Nat → GwResult) (maxH : Int)
    (rawPrompt : String) (h0 : List String) (hp : pyStrip rawPrompt = "")
    (hroom : (h0.length : Int) + 1 ≤ maxH) :
    (∀ hist : Option (List String), oneShot gw maxH rawPrompt hist =
      (trim_history maxH (some (append_raw hist (pyStrip rawPrompt))), 1)) ∧
    oneShot gw maxH rawPrompt (some h0) = (some (h0 ++ [""]), 1) ∧
    h0 ++ [""] ≠ h0 := by
  have hgen : ∀ hist : Option (List String), oneShot gw maxH rawPrompt hist =
      (trim_history maxH (some (append_raw hist (pyStrip rawPrompt))), 1) := by
    intro hist
    simp [oneShot, hp]
  refine ⟨hgen, ?_, ?_⟩
  · rw [hgen (some h0), hp]
    have hlen : ¬ (((h0 ++ [""]).length : Int) > maxH) := by
      simp only [List.length_append, List.length_cons, List.length_nil]
      omega
    simp [trim_history, append_raw, hlen]
    intro h
    exact absurd h (by omega)
  · intro hcontra
    have := congrArg List.length hcontra
    simp at this

/-- Witness for C10: a whitespace-only prompt against a one-line history
with room under the bound. -/
theorem c10_history_before_validation_witness :
    pyStrip "   " = "" ∧ ((["x"].length : Int) + 1 ≤ 10) ∧
    ((∀ hist : Option (List String), oneShot (fun _ => GwResult.failure) 10 "   " hist =
      (trim_history 10 (some (append_raw hist (pyStrip "   "))), 1)) ∧
    oneShot (fun _ => GwResult.failure) 10 "   " (some ["x"]) = (some (["x"] ++ [""]), 1) ∧
    ["x"] ++ [""] ≠ ["x"]) :=
  ⟨by decide, by decide,
    c10_history_before_validation (fun _ => GwResult.failure) 10 "   " ["x"]
      (by decide) (by decide)⟩
